import Mathlib

/-!
Verification of the market abstraction and swap-math engine of the
simple-arbitrage repository (src/UniswappyV2EthPair.ts, src/utils.ts).

The TypeScript code works on ethers BigNumber values: signed
arbitrary-precision integers whose division truncates toward zero and
throws on a zero divisor.  We embed BigNumber as Int, division as a
fallible operation returning Except, and the stateful UniswappyV2EthPair
class as a structure with explicit state-passing updates.  Network calls
(the batched registry query and the batched reserve query) are embedded
as explicit response arguments: a function from an index range to the
returned page of pair records, and the list of reserve pairs returned
for the queried markets, positionally aligned as the RPC contract
guarantees.
-/

namespace SimpleArb

/-- Failure modes of the embedded code.  The TypeScript throws untyped
errors; each constructor marks one distinct throw site:
divisionByZero for the BigNumber division fault, badToken for the
getBalance throw on a missing balance key (and for the crash a missing
key would cause inside getTokensIn and getTokensOut), badTokenInput for
the sellTokens throw on a non-constituent asset. -/
inductive EvalError where
  | divisionByZero : EvalError
  | badToken : EvalError
  | badTokenInput : EvalError
deriving DecidableEq, Repr

/-- BigNumber values are signed arbitrary-precision integers. -/
abbrev BigNumber := Int

/-- Division of BigNumber values: ethers BigNumber.div truncates toward
zero and throws a division-by-zero fault when the divisor is zero. -/
def bnDiv (a b : BigNumber) : Except EvalError BigNumber :=
  if b = 0 then Except.error EvalError.divisionByZero
  else Except.ok (Int.tdiv a b)

/-- Embedding of getAmountIn (UniswappyV2EthPair.ts lines 238-242):
numerator = reserveIn * amountOut * 1000,
denominator = (reserveOut - amountOut) * 997,
result = numerator.div(denominator).add(1). -/
def getAmountIn (reserveIn reserveOut amountOut : BigNumber) :
    Except EvalError BigNumber :=
  let numerator := reserveIn * amountOut * 1000
  let denominator := (reserveOut - amountOut) * 997
  match bnDiv numerator denominator with
  | Except.ok q => Except.ok (q + 1)
  | Except.error e => Except.error e

/-- Embedding of getAmountOut (UniswappyV2EthPair.ts lines 251-256):
amountInWithFee = amountIn * 997,
numerator = amountInWithFee * reserveOut,
denominator = reserveIn * 1000 + amountInWithFee,
result = numerator.div(denominator). -/
def getAmountOut (reserveIn reserveOut amountIn : BigNumber) :
    Except EvalError BigNumber :=
  let amountInWithFee := amountIn * 997
  let numerator := amountInWithFee * reserveOut
  let denominator := reserveIn * 1000 + amountInWithFee
  bnDiv numerator denominator

/-- Embedding of the UniswappyV2EthPair class state: the pool address,
the ordered pair of constituent token addresses, and the token-balance
mapping (a two-entry association list looked up by linear search, as the
design notes of the spec prescribe for the lodash zipObject dictionary).
The token fields model the storage of the EthMarket base class, whose
file is not under src: per the data model of the spec, an ordered pair
of two distinct asset identifiers fixed at construction. -/
structure UniswappyV2EthPair where
  marketAddress : String
  token0 : String
  token1 : String
  tokenBalances : List (String × BigNumber)
deriving DecidableEq, Repr

/-- Embedding of the constructor (lines 50-53): tokenBalances is
zipObject(tokens, [0, 0]), i.e. both constituent balances start at
zero. -/
def mkUniswappyV2EthPair (marketAddress token0 token1 : String) :
    UniswappyV2EthPair :=
  ⟨marketAddress, token0, token1, [(token0, 0), (token1, 0)]⟩

/-- Embedding of receiveDirectly (lines 60-62): the JavaScript in
operator on the balance dictionary, i.e. key membership. -/
def receiveDirectly (m : UniswappyV2EthPair) (tokenAddress : String) :
    Bool :=
  (m.tokenBalances.lookup tokenAddress).isSome

/-- Embedding of getBalance (lines 178-182): dictionary lookup, throwing
bad token when the key is absent. -/
def getBalance (m : UniswappyV2EthPair) (tokenAddress : String) :
    Except EvalError BigNumber :=
  match m.tokenBalances.lookup tokenAddress with
  | none => Except.error EvalError.badToken
  | some balance => Except.ok balance

/-- Embedding of setReservesViaMatchingArray (lines 197-202): rebuild
the two-entry dictionary from the given tokens and balances, and only
replace the stored one when it differs (the lodash isEqual guard).
Balances are a pair, as at every call site (the reserve pairs of the
chain response). -/
def setReservesViaMatchingArray (m : UniswappyV2EthPair)
    (tokens : String × String) (balances : BigNumber × BigNumber) :
    UniswappyV2EthPair :=
  let tokenBalances := [(tokens.1, balances.1), (tokens.2, balances.2)]
  if m.tokenBalances = tokenBalances then m
  else { m with tokenBalances := tokenBalances }

/-- Embedding of setReservesViaOrderedBalances (lines 188-190): zip the
stored token order with the given balances. -/
def setReservesViaOrderedBalances (m : UniswappyV2EthPair)
    (balances : BigNumber × BigNumber) : UniswappyV2EthPair :=
  setReservesViaMatchingArray m (m.token0, m.token1) balances

/-- Embedding of getTokensIn (lines 212-216): look both reserves up and
delegate to getAmountIn.  The source reads the dictionary without a
check; a missing key would crash the BigNumber arithmetic, embedded
here as the badToken error. -/
def getTokensIn (m : UniswappyV2EthPair) (tokenIn tokenOut : String)
    (amountOut : BigNumber) : Except EvalError BigNumber :=
  match m.tokenBalances.lookup tokenIn, m.tokenBalances.lookup tokenOut with
  | some reserveIn, some reserveOut => getAmountIn reserveIn reserveOut amountOut
  | _, _ => Except.error EvalError.badToken

/-- Embedding of getTokensOut (lines 225-229): look both reserves up and
delegate to getAmountOut. -/
def getTokensOut (m : UniswappyV2EthPair) (tokenIn tokenOut : String)
    (amountIn : BigNumber) : Except EvalError BigNumber :=
  match m.tokenBalances.lookup tokenIn, m.tokenBalances.lookup tokenOut with
  | some reserveIn, some reserveOut => getAmountOut reserveIn reserveOut amountIn
  | _, _ => Except.error EvalError.badToken

/-- Result of sellTokens (lines 291-308): the swap invocation the pool
contract receives, with the two positional output amounts, the
recipient, and an empty auxiliary-data field.  The ABI byte encoding
performed by the ethers library is abstracted to this record; the
amounts and recipient are exactly the arguments the source passes to
populateTransaction.swap. -/
structure SwapCall where
  amount0Out : BigNumber
  amount1Out : BigNumber
  recipient : String
deriving DecidableEq, Repr

/-- Embedding of sellTokens (lines 291-308): both output amounts start
at zero; the slot opposite tokenIn receives the forward quote; an asset
that is not a constituent throws bad token input before anything is
computed. -/
def sellTokens (m : UniswappyV2EthPair) (tokenIn : String)
    (amountIn : BigNumber) (recipient : String) :
    Except EvalError SwapCall :=
  if tokenIn = m.token0 then
    match getTokensOut m tokenIn m.token1 amountIn with
    | Except.ok amount1Out => Except.ok ⟨0, amount1Out, recipient⟩
    | Except.error e => Except.error e
  else if tokenIn = m.token1 then
    match getTokensOut m tokenIn m.token0 amountIn with
    | Except.ok amount0Out => Except.ok ⟨amount0Out, 0, recipient⟩
    | Except.error e => Except.error e
  else Except.error EvalError.badTokenInput

/-- Embedding of updateReserves (lines 161-171).  The chain response is
the list of reserve pairs, positionally aligned with the market list.
The loop applies setReservesViaOrderedBalances market by market; when
the response list is exhausted first, reading reserve[0] of undefined
crashes the loop, leaving the remaining markets untouched: the Bool
result records that crash.  When the response is longer, the loop ends
with the markets and the surplus entries are silently ignored. -/
def updateReserves :
    List UniswappyV2EthPair → List (BigNumber × BigNumber) →
      List UniswappyV2EthPair × Bool
  | [], _ => ([], false)
  | m :: ms, [] => (m :: ms, true)
  | m :: ms, r :: rs =>
    let rest := updateReserves ms rs
    (setReservesViaOrderedBalances m r :: rest.1, rest.2)

/-- Modelled from the spec: the configured quote asset identifier
(WETH_ADDRESS is imported from addresses.ts, which is not under src;
only its role as the quote asset matters, never its value). -/
def WETH_ADDRESS : String := "WETH"

/-- Embedding of blacklistTokens (lines 15-17). -/
def blacklistTokens : List String :=
  ["0xD75EA151a61d06868E31F8988D28DFE5E9df57B4"]

/-- Embedding of BATCH_COUNT_LIMIT (line 10). -/
def BATCH_COUNT_LIMIT : ℕ := 100

/-- Embedding of UNISWAP_BATCH_SIZE (line 11). -/
def UNISWAP_BATCH_SIZE : ℕ := 1000

/-- Raw pool record returned by the registry query: the pair array
[token0, token1, pairAddress] of getPairsByIndexRange. -/
structure PairRecord where
  token0 : String
  token1 : String
  address : String
deriving DecidableEq, Repr

/-- Embedding of the per-record body of the discovery loop
(lines 94-110): skip records without the quote asset, skip blacklisted
non-quote tokens, otherwise construct the market with both tokens in
registry order. -/
def processPair (pair : PairRecord) : Option UniswappyV2EthPair :=
  if pair.token0 = WETH_ADDRESS then
    if blacklistTokens.contains pair.token1 then none
    else some (mkUniswappyV2EthPair pair.address pair.token0 pair.token1)
  else if pair.token1 = WETH_ADDRESS then
    if blacklistTokens.contains pair.token0 then none
    else some (mkUniswappyV2EthPair pair.address pair.token0 pair.token1)
  else none

/-- Pagination skeleton of getUniswappyMarkets (lines 92-114): the
query argument embeds getPairsByIndexRange(factory, i, i + batchSize)
for the start and stop indices.  Fuel counts the remaining loop
iterations; fetching stops early when a page is shorter than the batch
size.  The result is the list of fetched pages, so its length counts
the queries issued. -/
def fetchPages (query : ℕ → ℕ → List PairRecord) (batchSize : ℕ) :
    ℕ → ℕ → List (List PairRecord)
  | 0, _ => []
  | n + 1, i =>
    let pairs := query i (i + batchSize)
    if pairs.length < batchSize then [pairs]
    else pairs :: fetchPages query batchSize n (i + batchSize)

/-- Embedding of getUniswappyMarkets (lines 88-117): the loop runs at
most batchCountLimit iterations (its index i stays below
batchCountLimit * batchSize and advances by batchSize; with a zero
batch size the loop body never runs), and every fetched record passes
through the per-record body in order. -/
def getUniswappyMarkets (query : ℕ → ℕ → List PairRecord)
    (batchCountLimit batchSize : ℕ) : List UniswappyV2EthPair :=
  ((fetchPages query batchSize
      (if batchSize = 0 then 0 else batchCountLimit) 0).flatten).filterMap
    processPair

/-- Pages fetched by one discovery run: the number of registry queries
getUniswappyMarkets issues. -/
def pagesFetched (query : ℕ → ℕ → List PairRecord)
    (batchCountLimit batchSize : ℕ) : ℕ :=
  (fetchPages query batchSize
      (if batchSize = 0 then 0 else batchCountLimit) 0).length

/-- Embedding of ETHER (utils.ts line 3): 10 to the power 18. -/
def ETHER : BigNumber := 10 ^ 18

/-- Grouping key of getUniswapMarketsByToken (lines 132 and 146): the
non-quote token of a pair. -/
def nonQuoteToken (m : UniswappyV2EthPair) : String :=
  if m.token0 = WETH_ADDRESS then m.token1 else m.token0

/-- Group of a token in a market list: the markets whose non-quote
token is the given token, in list order (the lodash groupBy buckets). -/
def marketsWithToken (ms : List UniswappyV2EthPair) (t : String) :
    List UniswappyV2EthPair :=
  ms.filter (fun m => nonQuoteToken m = t)

/-- Keys of a lodash groupBy result in insertion order: first
occurrences, duplicates dropped. -/
def dedupFirst : List String → List String
  | [] => []
  | t :: ts => t :: (dedupFirst ts).filter (fun x => x != t)

/-- First pass of getUniswapMarketsByToken (lines 130-140): group all
markets by non-quote token, keep the groups with more than one market
(the lodash pickBy), and flatten the surviving groups in key order. -/
def allMarketPairsOf (ms : List UniswappyV2EthPair) :
    List UniswappyV2EthPair :=
  ((dedupFirst (ms.map nonQuoteToken)).filter
      (fun t => 1 < (marketsWithToken ms t).length)).flatMap
    (marketsWithToken ms)

/-- Liquidity filter of the second pass (line 145):
pair.getBalance(WETH_ADDRESS).gt(ETHER).  A market without the quote
asset would make getBalance throw; such markets never reach this filter
in the pipeline. -/
def wethAboveThreshold (m : UniswappyV2EthPair) : Bool :=
  match getBalance m WETH_ADDRESS with
  | Except.ok balance => decide (ETHER < balance)
  | Except.error _ => false

/-- Embedding of getUniswapMarketsByToken (lines 125-153) for one
already-discovered market list: first pass drops groups with fewer than
two markets, the flattened survivors are synchronized against the given
reserve response, the second pass keeps markets whose quote reserve
exceeds ETHER and re-groups them.  Returns the grouped view (token to
group) and the flat synchronized market list the source also returns. -/
def getUniswapMarketsByToken (ms : List UniswappyV2EthPair)
    (reserves : List (BigNumber × BigNumber)) :
    (String → List UniswappyV2EthPair) × List UniswappyV2EthPair :=
  let allMarketPairs := allMarketPairsOf ms
  let synced := (updateReserves allMarketPairs reserves).1
  let survivors := synced.filter wethAboveThreshold
  (fun t => marketsWithToken survivors t, synced)

/-- Truncated Int division of Nat casts is Nat division. -/
lemma tdiv_natCast (m n : ℕ) :
    Int.tdiv (m : ℤ) (n : ℤ) = ((m / n : ℕ) : ℤ) := rfl

/-- Evaluation of getAmountOut on non-negative inputs whose denominator
is positive: it returns the floor formula of the spec. -/
lemma getAmountOut_eval (reserveIn reserveOut amountIn : ℕ)
    (h : 0 < reserveIn + amountIn) :
    getAmountOut (reserveIn : ℤ) (reserveOut : ℤ) (amountIn : ℤ) =
      Except.ok ((amountIn * 997 * reserveOut /
        (reserveIn * 1000 + amountIn * 997) : ℕ) : ℤ) := by
  have hnum : ((amountIn : ℤ) * 997 * (reserveOut : ℤ)) =
      ((amountIn * 997 * reserveOut : ℕ) : ℤ) := by push_cast; ring
  have hden : ((reserveIn : ℤ) * 1000 + (amountIn : ℤ) * 997) =
      ((reserveIn * 1000 + amountIn * 997 : ℕ) : ℤ) := by push_cast; ring
  have hden0 : ((reserveIn : ℤ) * 1000 + (amountIn : ℤ) * 997) ≠ 0 := by
    have : 0 < reserveIn * 1000 + amountIn * 997 := by omega
    omega
  simp only [getAmountOut, bnDiv, if_neg hden0]
  rw [hnum, hden, tdiv_natCast]

/-- Evaluation of getAmountIn on non-negative inputs with
amountOut < reserveOut: it returns the floor formula of the spec,
plus one. -/
lemma getAmountIn_eval (reserveIn reserveOut amountOut : ℕ)
    (h : amountOut < reserveOut) :
    getAmountIn (reserveIn : ℤ) (reserveOut : ℤ) (amountOut : ℤ) =
      Except.ok (((reserveIn * amountOut * 1000 /
        ((reserveOut - amountOut) * 997) : ℕ) : ℤ) + 1) := by
  have hnum : ((reserveIn : ℤ) * (amountOut : ℤ) * 1000) =
      ((reserveIn * amountOut * 1000 : ℕ) : ℤ) := by push_cast; ring
  have hden : (((reserveOut : ℤ) - (amountOut : ℤ)) * 997) =
      (((reserveOut - amountOut) * 997 : ℕ) : ℤ) := by
    push_cast [Nat.cast_sub (le_of_lt h)]; ring
  have hden0 : (((reserveOut : ℤ) - (amountOut : ℤ)) * 997) ≠ 0 := by
    have : (0 : ℤ) < ((reserveOut : ℤ) - (amountOut : ℤ)) * 997 := by
      have : (amountOut : ℤ) < (reserveOut : ℤ) := by exact_mod_cast h
      nlinarith
    omega
  simp only [getAmountIn, bnDiv, if_neg hden0]
  rw [hnum, hden, tdiv_natCast]

/-- C1: for all non-negative integer reserves and input amount (with the
denominator non-zero, i.e. not both reserveIn and amountIn zero, where
the division itself is undefined and the code throws), getAmountOut
returns exactly floor((amountIn * 997 * reserveOut) /
(reserveIn * 1000 + amountIn * 997)), divisions truncating toward zero;
in particular at reserves 1000000/1000000 and amountIn 1000 it
returns 996. -/
theorem c1_getAmountOut_formula (reserveIn reserveOut amountIn : ℕ)
    (h : 0 < reserveIn + amountIn) :
    getAmountOut (reserveIn : ℤ) (reserveOut : ℤ) (amountIn : ℤ) =
      Except.ok ((amountIn * 997 * reserveOut /
        (reserveIn * 1000 + amountIn * 997) : ℕ) : ℤ) :=
  getAmountOut_eval reserveIn reserveOut amountIn h

/-- Witness for C1 at the concrete input of the spec example:
reserves 1000000/1000000 and amountIn 1000 give exactly 996. -/
theorem c1_getAmountOut_formula_witness :
    getAmountOut ((1000000 : ℕ) : ℤ) ((1000000 : ℕ) : ℤ) ((1000 : ℕ) : ℤ) =
      Except.ok ((996 : ℕ) : ℤ) := by
  have h := c1_getAmountOut_formula 1000000 1000000 1000 (by decide)
  rw [h]

/-- C2: for all non-negative integer reserves and desired output with
amountOut < reserveOut, getAmountIn returns exactly
floor((reserveIn * amountOut * 1000) / ((reserveOut - amountOut) * 997))
plus 1, the division truncating toward zero. -/
theorem c2_getAmountIn_formula (reserveIn reserveOut amountOut : ℕ)
    (h : amountOut < reserveOut) :
    getAmountIn (reserveIn : ℤ) (reserveOut : ℤ) (amountOut : ℤ) =
      Except.ok (((reserveIn * amountOut * 1000 /
        ((reserveOut - amountOut) * 997) : ℕ) : ℤ) + 1) :=
  getAmountIn_eval reserveIn reserveOut amountOut h

/-- Witness for C2 at a concrete input: reserves 1000000/1000000 and
amountOut 996 give 999 + 1 = 1000. -/
theorem c2_getAmountIn_formula_witness :
    getAmountIn ((1000000 : ℕ) : ℤ) ((1000000 : ℕ) : ℤ) ((996 : ℕ) : ℤ) =
      Except.ok (((999 : ℕ) : ℤ) + 1) := by
  have h := c2_getAmountIn_formula 1000000 1000000 996 (by decide)
  rw [h]

/-- Cross-multiplied comparison of Nat floor divisions: if p / q is at
most p' / q' as rationals then so are the floors. -/
lemma div_le_div_cross {p p' q q' : ℕ} (hq : 0 < q) (hq' : 0 < q')
    (h : p * q' ≤ p' * q) : p / q ≤ p' / q' := by
  rw [Nat.le_div_iff_mul_le hq']
  have h2 : p / q * q' * q ≤ p' * q := by
    calc p / q * q' * q = p / q * q * q' := by ring
      _ ≤ p * q' := Nat.mul_le_mul_right q' (Nat.div_mul_le_self p q)
      _ ≤ p' * q := h
  exact Nat.le_of_mul_le_mul_right h2 hq

/-- Counterexample to C4: getAmountOut is not strictly monotone in any
of its three arguments.  At reserveIn 1000, reserveOut 1, amountIn 1
the quote is 0 and it stays 0 when amountIn grows to 2, when reserveOut
grows to 2, and when reserveIn grows to 1001 — all three strict
monotonicity statements of the claim fail at these positive inputs. -/
theorem c4_strict_monotonicity_counterexample :
    getAmountOut 1000 1 1 = Except.ok 0 ∧
    getAmountOut 1000 1 2 = Except.ok 0 ∧
    getAmountOut 1000 2 1 = Except.ok 0 ∧
    getAmountOut 1001 1 1 = Except.ok 0 :=
  ⟨rfl, rfl, rfl, rfl⟩

/-- C4 (amended): over positive reserves and positive input, and with
strictness weakened to weak monotonicity (the smallest change the
counterexample allows), getAmountOut is increasing in amountIn,
increasing in reserveOut, and decreasing in reserveIn, holding the
other two arguments fixed. -/
theorem c4_getAmountOut_monotone :
    (∀ reserveIn reserveOut amountIn amountIn' : ℕ,
      0 < reserveIn → 0 < reserveOut → 0 < amountIn →
      amountIn ≤ amountIn' → ∀ v v' : ℤ,
      getAmountOut (reserveIn : ℤ) (reserveOut : ℤ) (amountIn : ℤ) =
        Except.ok v →
      getAmountOut (reserveIn : ℤ) (reserveOut : ℤ) (amountIn' : ℤ) =
        Except.ok v' → v ≤ v') ∧
    (∀ reserveIn reserveOut reserveOut' amountIn : ℕ,
      0 < reserveIn → 0 < reserveOut → 0 < amountIn →
      reserveOut ≤ reserveOut' → ∀ v v' : ℤ,
      getAmountOut (reserveIn : ℤ) (reserveOut : ℤ) (amountIn : ℤ) =
        Except.ok v →
      getAmountOut (reserveIn : ℤ) (reserveOut' : ℤ) (amountIn : ℤ) =
        Except.ok v' → v ≤ v') ∧
    (∀ reserveIn reserveIn' reserveOut amountIn : ℕ,
      0 < reserveIn → 0 < reserveOut → 0 < amountIn →
      reserveIn ≤ reserveIn' → ∀ v v' : ℤ,
      getAmountOut (reserveIn : ℤ) (reserveOut : ℤ) (amountIn : ℤ) =
        Except.ok v →
      getAmountOut (reserveIn' : ℤ) (reserveOut : ℤ) (amountIn : ℤ) =
        Except.ok v' → v' ≤ v) := by
  refine ⟨?_, ?_, ?_⟩
  · intro r1 r2 a a' h1 h2 h3 ha v v' hv hv'
    rw [getAmountOut_eval r1 r2 a (by omega)] at hv
    rw [getAmountOut_eval r1 r2 a' (by omega)] at hv'
    simp only [Except.ok.injEq] at hv hv'
    subst hv hv'
    have key : a * 997 * r2 / (r1 * 1000 + a * 997) ≤
        a' * 997 * r2 / (r1 * 1000 + a' * 997) := by
      apply div_le_div_cross (by omega) (by omega)
      have e1 : a * 997 * r2 * (r1 * 1000 + a' * 997) =
          a * (997 * r2 * (r1 * 1000)) + 997 * 997 * r2 * (a * a') := by
        ring
      have e2 : a' * 997 * r2 * (r1 * 1000 + a * 997) =
          a' * (997 * r2 * (r1 * 1000)) + 997 * 997 * r2 * (a * a') := by
        ring
      rw [e1, e2]
      exact Nat.add_le_add_right
        (Nat.mul_le_mul_right (997 * r2 * (r1 * 1000)) ha) _
    exact_mod_cast key
  · intro r1 r2 r2' a h1 h2 h3 hr v v' hv hv'
    rw [getAmountOut_eval r1 r2 a (by omega)] at hv
    rw [getAmountOut_eval r1 r2' a (by omega)] at hv'
    simp only [Except.ok.injEq] at hv hv'
    subst hv hv'
    have key : a * 997 * r2 / (r1 * 1000 + a * 997) ≤
        a * 997 * r2' / (r1 * 1000 + a * 997) :=
      Nat.div_le_div_right (Nat.mul_le_mul_left (a * 997) hr)
    exact_mod_cast key
  · intro r1 r1' r2 a h1 h2 h3 hr v v' hv hv'
    rw [getAmountOut_eval r1 r2 a (by omega)] at hv
    rw [getAmountOut_eval r1' r2 a (by omega)] at hv'
    simp only [Except.ok.injEq] at hv hv'
    subst hv hv'
    have key : a * 997 * r2 / (r1' * 1000 + a * 997) ≤
        a * 997 * r2 / (r1 * 1000 + a * 997) :=
      Nat.div_le_div_left (by omega) (by omega)
    exact_mod_cast key

/-- Witness for the amended C4 at concrete inputs: from reserves
1000000/1000000 and amountIn 1000 (quote 996), raising amountIn to 2000
gives 1990, raising reserveOut to 2000000 gives 1992, and raising
reserveIn to 2000000 gives 498. -/
theorem c4_getAmountOut_monotone_witness :
    ((996 : ℤ) ≤ (1990 : ℤ)) ∧ ((996 : ℤ) ≤ (1992 : ℤ)) ∧
      ((498 : ℤ) ≤ (996 : ℤ)) := by
  refine ⟨?_, ?_, ?_⟩
  · exact c4_getAmountOut_monotone.1 1000000 1000000 1000 2000
      (by decide) (by decide) (by decide) (by decide) 996 1990 rfl rfl
  · exact c4_getAmountOut_monotone.2.1 1000000 1000000 2000000 1000
      (by decide) (by decide) (by decide) (by decide) 996 1992 rfl rfl
  · exact c4_getAmountOut_monotone.2.2 1000000 2000000 1000000 1000
      (by decide) (by decide) (by decide) (by decide) 996 498 rfl rfl

/-- Counterexample to C5: at reserves 1000/1000 and requested
amountOut 2000 — strictly above reserveOut — getAmountIn does not fail:
the BigNumber subtraction goes negative, the division truncates toward
zero, and the call returns the meaningless value -2005. -/
theorem c5_insufficient_liquidity_counterexample :
    getAmountIn 1000 1000 2000 = Except.ok (-2005) ∧
      (1000 : ℤ) ≤ 2000 :=
  ⟨rfl, by decide⟩

/-- C5 (amended): getAmountIn fails — with the division-by-zero fault
of the BigNumber division, the only failure the code can raise here —
exactly when amountOut = reserveOut; for every other non-negative
amountOut it returns a value, including amountOut > reserveOut, where
the claimed insufficient-liquidity failure does not happen and the
returned value is meaningless. -/
theorem c5_getAmountIn_error_iff (reserveIn reserveOut amountOut : ℕ) :
    (getAmountIn (reserveIn : ℤ) (reserveOut : ℤ) (amountOut : ℤ) =
        Except.error EvalError.divisionByZero ↔ amountOut = reserveOut) ∧
    (amountOut ≠ reserveOut →
      ∃ v, getAmountIn (reserveIn : ℤ) (reserveOut : ℤ) (amountOut : ℤ) =
        Except.ok v) := by
  have hden : (((reserveOut : ℤ) - (amountOut : ℤ)) * 997 = 0) ↔
      amountOut = reserveOut := by
    constructor
    · intro h
      rcases mul_eq_zero.mp h with h | h
      · omega
      · omega
    · intro h
      rw [h]
      ring
  constructor
  · constructor
    · intro h
      by_contra hne
      have h0 : ((reserveOut : ℤ) - (amountOut : ℤ)) * 997 ≠ 0 :=
        fun hc => hne (hden.mp hc)
      simp only [getAmountIn, bnDiv, if_neg h0] at h
      exact Except.noConfusion h
    · intro h
      have h0 : ((reserveOut : ℤ) - (amountOut : ℤ)) * 997 = 0 :=
        hden.mpr h
      simp only [getAmountIn, bnDiv, if_pos h0]
  · intro hne
    have h0 : ((reserveOut : ℤ) - (amountOut : ℤ)) * 997 ≠ 0 :=
      fun hc => hne (hden.mp hc)
    refine ⟨Int.tdiv ((reserveIn : ℤ) * (amountOut : ℤ) * 1000)
      (((reserveOut : ℤ) - (amountOut : ℤ)) * 997) + 1, ?_⟩
    simp only [getAmountIn, bnDiv, if_neg h0]

/-- Witness for the amended C5 at a concrete input: amountOut 2000 over
reserveOut 1000 differs from it, so a value is returned. -/
theorem c5_getAmountIn_error_iff_witness :
    ∃ v, getAmountIn ((1000 : ℕ) : ℤ) ((1000 : ℕ) : ℤ) ((2000 : ℕ) : ℤ) =
      Except.ok v :=
  (c5_getAmountIn_error_iff 1000 1000 2000).2 (by decide)

/-- Counterexample to C3: the composition exactly as the spec writes
it, quoteAmountIn(assetOut, assetIn, quoteAmountOut(assetIn, assetOut,
amountIn)), can exceed amountIn.  On a market with tokens A, B and
reserves 998 and 998, forward-quoting 998000 of A gives 997 of B, and
getTokensIn(B, A, 997) returns 998001 > 998000 — one over amountIn.
On a market with reserves 68 and 79 and amountIn 381 the same
composition returns 5309, nearly fourteen times amountIn: the
transposed argument order quotes the reverse trade direction and obeys
no bound relative to amountIn at all. -/
theorem c3_roundtrip_counterexample :
    (getTokensOut
        (setReservesViaOrderedBalances
          (mkUniswappyV2EthPair "P" "A" "B") (998, 998)) "A" "B" 998000 =
      Except.ok 997) ∧
    (getTokensIn
        (setReservesViaOrderedBalances
          (mkUniswappyV2EthPair "P" "A" "B") (998, 998)) "B" "A" 997 =
      Except.ok 998001) ∧
    ((998000 : ℤ) < 998001) ∧
    (getTokensOut
        (setReservesViaOrderedBalances
          (mkUniswappyV2EthPair "Q" "A" "B") (68, 79)) "A" "B" 381 =
      Except.ok 67) ∧
    (getTokensIn
        (setReservesViaOrderedBalances
          (mkUniswappyV2EthPair "Q" "A" "B") (68, 79)) "B" "A" 67 =
      Except.ok 5309) ∧
    ((381 : ℤ) < 5309) :=
  ⟨rfl, rfl, by decide, rfl, rfl, by decide⟩

/-- C3 (amended): the conservative-rounding round trip holds for the
composition oriented the way the quotes invert each other — the inverse
quote taken over the same reserve orientation as the forward quote,
getAmountIn(reserveIn, reserveOut, getAmountOut(reserveIn, reserveOut,
amountIn)) — and with the bound weakened by the one base unit the +1
compensation adds at exact-division points: for positive reserves and
positive amountIn both quotes succeed and the round trip is at most
amountIn + 1. -/
theorem c3_roundtrip_bound (reserveIn reserveOut amountIn : ℕ)
    (h1 : 0 < reserveIn) (h2 : 0 < reserveOut) (h3 : 0 < amountIn) :
    ∃ outAmt inAmt : ℤ,
      getAmountOut (reserveIn : ℤ) (reserveOut : ℤ) (amountIn : ℤ) =
        Except.ok outAmt ∧
      getAmountIn (reserveIn : ℤ) (reserveOut : ℤ) outAmt =
        Except.ok inAmt ∧
      inAmt ≤ (amountIn : ℤ) + 1 := by
  have hDpos : 0 < reserveIn * 1000 + amountIn * 997 := by omega
  have hout_lt : amountIn * 997 * reserveOut /
      (reserveIn * 1000 + amountIn * 997) < reserveOut := by
    rw [Nat.div_lt_iff_lt_mul hDpos]
    nlinarith [mul_pos h2 h1]
  have hkey : amountIn * 997 * reserveOut /
        (reserveIn * 1000 + amountIn * 997) *
        (reserveIn * 1000 + amountIn * 997) ≤
      amountIn * 997 * reserveOut :=
    Nat.div_mul_le_self _ _
  generalize hq : amountIn * 997 * reserveOut /
    (reserveIn * 1000 + amountIn * 997) = q at hout_lt hkey
  refine ⟨(q : ℤ), _, ?_, getAmountIn_eval reserveIn reserveOut q
    hout_lt, ?_⟩
  · have e := getAmountOut_eval reserveIn reserveOut amountIn (by omega)
    rw [hq] at e
    exact e
  · have hfloor : reserveIn * q * 1000 / ((reserveOut - q) * 997) ≤
        amountIn := by
      rw [← Nat.lt_succ_iff,
        Nat.div_lt_iff_lt_mul (by
          have hsub : 0 < reserveOut - q := by omega
          positivity)]
      have hkeyZ : (q : ℤ) * ((reserveIn : ℤ) * 1000 +
          (amountIn : ℤ) * 997) ≤
          (amountIn : ℤ) * 997 * (reserveOut : ℤ) := by
        exact_mod_cast hkey
      have houtZ : (q : ℤ) < (reserveOut : ℤ) := by exact_mod_cast hout_lt
      zify [hout_lt.le]
      nlinarith [hkeyZ, houtZ]
    have hfloorZ : ((reserveIn * q * 1000 /
        ((reserveOut - q) * 997) : ℕ) : ℤ) ≤ (amountIn : ℤ) :=
      Int.ofNat_le.mpr hfloor
    omega

/-- Witness for the amended C3 at a concrete input: reserves
1000000/1000000 and amountIn 1000 round-trip through 996 to 1000,
within the 1001 bound. -/
theorem c3_roundtrip_bound_witness :
    ∃ outAmt inAmt : ℤ,
      getAmountOut ((1000000 : ℕ) : ℤ) ((1000000 : ℕ) : ℤ)
          ((1000 : ℕ) : ℤ) = Except.ok outAmt ∧
      getAmountIn ((1000000 : ℕ) : ℤ) ((1000000 : ℕ) : ℤ) outAmt =
        Except.ok inAmt ∧
      inAmt ≤ ((1000 : ℕ) : ℤ) + 1 :=
  c3_roundtrip_bound 1000000 1000000 1000 (by decide) (by decide)
    (by decide)

/-- Counterexample to C6: updateReserves never checks lengths.  With
two markets and a three-entry response it succeeds (no mismatch
failure), silently ignoring the extra entry; with two markets and a
one-entry response it crashes only after applying the first reserve
pair, a partial application. -/
theorem c6_mismatch_counterexample :
    (updateReserves
        [mkUniswappyV2EthPair "P1" "A" "B",
         mkUniswappyV2EthPair "P2" "C" "D"]
        [(5, 6), (7, 8), (9, 10)] =
      ([⟨"P1", "A", "B", [("A", 5), ("B", 6)]⟩,
        ⟨"P2", "C", "D", [("C", 7), ("D", 8)]⟩], false)) ∧
    (updateReserves
        [mkUniswappyV2EthPair "P1" "A" "B",
         mkUniswappyV2EthPair "P2" "C" "D"]
        [(5, 6)] =
      ([⟨"P1", "A", "B", [("A", 5), ("B", 6)]⟩,
        mkUniswappyV2EthPair "P2" "C" "D"], true)) :=
  ⟨rfl, rfl⟩

/-- C6 (amended): updateReserves performs no length check.  It applies
the response positionally to the first min(markets, response) markets:
when the response is longer the surplus is silently ignored and no
failure is raised; when the response is shorter the loop crashes — an
undefined-element access, not a typed mismatch failure — but only after
the covered prefix of markets has already been updated, so the batch is
partially applied. -/
theorem c6_updateReserves_no_length_check
    (markets : List UniswappyV2EthPair)
    (reserves : List (BigNumber × BigNumber)) :
    (updateReserves markets reserves).1 =
      markets.zipWith setReservesViaOrderedBalances reserves ++
        markets.drop reserves.length ∧
    ((updateReserves markets reserves).2 = true ↔
      reserves.length < markets.length) := by
  induction markets generalizing reserves with
  | nil => cases reserves <;> simp [updateReserves]
  | cons m ms ih =>
    cases reserves with
    | nil => simp [updateReserves]
    | cons r rs =>
      obtain ⟨ih1, ih2⟩ := ih rs
      constructor
      · simp [updateReserves, ih1]
      · simp [updateReserves, ih2, Nat.succ_lt_succ_iff]

/-- Pages fetched when every page within the limit is full: the loop
runs out its full budget. -/
lemma fetchPages_length_full (query : ℕ → ℕ → List PairRecord)
    (B : ℕ) :
    ∀ n i, (∀ k < n, B ≤ (query (i + k * B) (i + k * B + B)).length) →
      (fetchPages query B n i).length = n := by
  intro n
  induction n with
  | zero => intro i _; rfl
  | succ n ih =>
    intro i h
    have h0 : B ≤ (query i (i + B)).length := by
      simpa using h 0 n.succ_pos
    have hrest : ∀ k < n,
        B ≤ (query (i + B + k * B) (i + B + k * B + B)).length := by
      intro k hk
      have hk1 := h (k + 1) (by omega)
      have e : i + (k + 1) * B = i + B + k * B := by ring
      rw [e] at hk1
      exact hk1
    simp only [fetchPages]
    rw [if_neg (by omega)]
    simp [ih (i + B) hrest]

/-- Pages fetched when the first short page is page k0 (within the
limit): exactly k0 + 1 pages. -/
lemma fetchPages_length_short (query : ℕ → ℕ → List PairRecord)
    (B : ℕ) :
    ∀ k0 n i, k0 < n →
      (query (i + k0 * B) (i + k0 * B + B)).length < B →
      (∀ j < k0, B ≤ (query (i + j * B) (i + j * B + B)).length) →
      (fetchPages query B n i).length = k0 + 1 := by
  intro k0
  induction k0 with
  | zero =>
    intro n i hn hshort _
    obtain ⟨n', rfl⟩ : ∃ n', n = n' + 1 := ⟨n - 1, by omega⟩
    have hshort' : (query i (i + B)).length < B := by simpa using hshort
    simp only [fetchPages]
    rw [if_pos hshort']
    rfl
  | succ k ih =>
    intro n i hn hshort hfull
    obtain ⟨n', rfl⟩ : ∃ n', n = n' + 1 := ⟨n - 1, by omega⟩
    have h0 : B ≤ (query i (i + B)).length := by
      simpa using hfull 0 k.succ_pos
    have hshort' :
        (query (i + B + k * B) (i + B + k * B + B)).length < B := by
      have e : i + (k + 1) * B = i + B + k * B := by ring
      rw [e] at hshort
      exact hshort
    have hfull' : ∀ j < k,
        B ≤ (query (i + B + j * B) (i + B + j * B + B)).length := by
      intro j hj
      have hj1 := hfull (j + 1) (by omega)
      have e : i + (j + 1) * B = i + B + j * B := by ring
      rw [e] at hj1
      exact hj1
    simp only [fetchPages]
    rw [if_neg (by omega)]
    simp [ih n' (i + B) (by omega) hshort' hfull']

/-- C7: with a positive batch size and a positive batch count limit,
discovery stops exactly when a page comes back shorter than the batch
size or when the limit is exhausted: a short first page means exactly
one query regardless of the limit, a first short page at index k0
below the limit means exactly k0 + 1 queries, and all pages full within
the limit means exactly limit many queries. -/
theorem c7_pagination_stops (query : ℕ → ℕ → List PairRecord)
    (batchCountLimit batchSize : ℕ)
    (hB : 0 < batchSize) (hL : 0 < batchCountLimit) :
    ((query 0 batchSize).length < batchSize →
      pagesFetched query batchCountLimit batchSize = 1) ∧
    (∀ k0 < batchCountLimit,
      (query (k0 * batchSize)
          (k0 * batchSize + batchSize)).length < batchSize →
      (∀ j < k0, batchSize ≤
        (query (j * batchSize) (j * batchSize + batchSize)).length) →
      pagesFetched query batchCountLimit batchSize = k0 + 1) ∧
    ((∀ k < batchCountLimit, batchSize ≤
        (query (k * batchSize) (k * batchSize + batchSize)).length) →
      pagesFetched query batchCountLimit batchSize = batchCountLimit) := by
  have hif : (if batchSize = 0 then 0 else batchCountLimit) =
      batchCountLimit := if_neg (by omega)
  refine ⟨?_, ?_, ?_⟩
  · intro hshort
    have := fetchPages_length_short query batchSize 0 batchCountLimit 0
      hL (by simpa using hshort) (by omega)
    unfold pagesFetched
    rw [hif, this]
  · intro k0 hk0 hshort hfull
    have := fetchPages_length_short query batchSize k0 batchCountLimit 0
      hk0 (by simpa using hshort) (by
        intro j hj
        simpa using hfull j hj)
    unfold pagesFetched
    rw [hif, this]
  · intro hfull
    have := fetchPages_length_full query batchSize batchCountLimit 0 (by
      intro k hk
      simpa using hfull k hk)
    unfold pagesFetched
    rw [hif, this]

/-- Witness for C7 at concrete configuration: an empty registry (every
query returns no records) with the source constants — batch size 1000,
batch count limit 100 — fetches exactly one page. -/
theorem c7_pagination_stops_witness :
    pagesFetched (fun _ _ => []) BATCH_COUNT_LIMIT UNISWAP_BATCH_SIZE =
      1 :=
  (c7_pagination_stops (fun _ _ => []) BATCH_COUNT_LIMIT
    UNISWAP_BATCH_SIZE (by decide) (by decide)).1 (by decide)

/-- Membership in the first-occurrence key list is plain membership. -/
lemma mem_dedupFirst (a : String) (l : List String) :
    a ∈ dedupFirst l ↔ a ∈ l := by
  induction l with
  | nil => simp [dedupFirst]
  | cons t ts ih =>
    by_cases hat : a = t
    · subst hat
      simp [dedupFirst]
    · simp [dedupFirst, List.mem_filter, ih, hat, bne_iff_ne]

/-- C8: the first pass of getUniswapMarketsByToken keeps exactly the
markets whose non-quote-token group has at least two members; the
second pass groups exactly the synchronized markets whose quote-asset
reserve exceeds the threshold, keyed by non-quote token.  On the spec
example — asset X with one market, asset Y with three — the first pass
keeps exactly the three Y markets, and when the synchronized reserves
leave every quote-asset balance at or below the threshold the resulting
grouped index is empty for every token. -/
theorem c8_two_pass_grouping :
    (∀ (ms : List UniswappyV2EthPair) (m : UniswappyV2EthPair),
      m ∈ allMarketPairsOf ms ↔ m ∈ ms ∧
        1 < (marketsWithToken ms (nonQuoteToken m)).length) ∧
    (∀ (ms : List UniswappyV2EthPair)
      (rs : List (BigNumber × BigNumber)) (t : String)
      (m : UniswappyV2EthPair),
      m ∈ (getUniswapMarketsByToken ms rs).1 t ↔
        m ∈ (updateReserves (allMarketPairsOf ms) rs).1 ∧
          wethAboveThreshold m = true ∧ nonQuoteToken m = t) ∧
    (allMarketPairsOf
        [mkUniswappyV2EthPair "PX" WETH_ADDRESS "X",
         mkUniswappyV2EthPair "PY1" WETH_ADDRESS "Y",
         mkUniswappyV2EthPair "PY2" "Y" WETH_ADDRESS,
         mkUniswappyV2EthPair "PY3" WETH_ADDRESS "Y"] =
      [mkUniswappyV2EthPair "PY1" WETH_ADDRESS "Y",
       mkUniswappyV2EthPair "PY2" "Y" WETH_ADDRESS,
       mkUniswappyV2EthPair "PY3" WETH_ADDRESS "Y"]) ∧
    (∀ t, (getUniswapMarketsByToken
        [mkUniswappyV2EthPair "PX" WETH_ADDRESS "X",
         mkUniswappyV2EthPair "PY1" WETH_ADDRESS "Y",
         mkUniswappyV2EthPair "PY2" "Y" WETH_ADDRESS,
         mkUniswappyV2EthPair "PY3" WETH_ADDRESS "Y"]
        [(1, 1), (1, 1), (1, 1)]).1 t = []) := by
  refine ⟨?_, ?_, by decide, fun t => rfl⟩
  · intro ms m
    unfold allMarketPairsOf
    rw [List.mem_flatMap]
    constructor
    · rintro ⟨t, ht, hm⟩
      rw [List.mem_filter] at ht
      obtain ⟨_, ht2⟩ := ht
      unfold marketsWithToken at hm
      rw [List.mem_filter] at hm
      obtain ⟨hm1, hm2⟩ := hm
      have hnq : nonQuoteToken m = t := by simpa using hm2
      subst hnq
      exact ⟨hm1, by simpa using ht2⟩
    · rintro ⟨hm, hlen⟩
      refine ⟨nonQuoteToken m, ?_, ?_⟩
      · rw [List.mem_filter]
        refine ⟨?_, by simpa using hlen⟩
        rw [mem_dedupFirst]
        exact List.mem_map_of_mem _ hm
      · unfold marketsWithToken
        rw [List.mem_filter]
        exact ⟨hm, by simp⟩
  · intro ms rs t m
    simp only [getUniswapMarketsByToken, marketsWithToken,
      List.mem_filter, decide_eq_true_eq]
    tauto

/-- Counterexample to C9: sellTokens does not always put a non-zero
amount in the opposite output slot.  On a freshly constructed market
(both reserves zero, as every market is between discovery and the first
reserve synchronization), selling 1000 of token A quotes 0 of token B,
and the produced swap invocation carries zero in both slots. -/
theorem c9_nonzero_slot_counterexample :
    sellTokens (mkUniswappyV2EthPair "P" "A" "B") "A" 1000 "R" =
      Except.ok ⟨0, 0, "R"⟩ :=
  rfl

/-- C9 (amended): whenever the forward quote succeeds, sellTokens with
assetIn = token0 produces the quoted amount — which may be zero — in
the token1 slot (amount1Out) and zero in the token0 slot, and
symmetrically for assetIn = token1; an asset that is not a constituent
fails with the bad-token-input error, before any quote or encoding is
attempted (the embedding is pure, so no state can change). -/
theorem c9_sellTokens_slots (m : UniswappyV2EthPair) (tokenIn : String)
    (amountIn : BigNumber) (recipient : String) :
    (tokenIn = m.token0 → ∀ v,
      getTokensOut m tokenIn m.token1 amountIn = Except.ok v →
      sellTokens m tokenIn amountIn recipient =
        Except.ok ⟨0, v, recipient⟩) ∧
    (tokenIn ≠ m.token0 → tokenIn = m.token1 → ∀ v,
      getTokensOut m tokenIn m.token0 amountIn = Except.ok v →
      sellTokens m tokenIn amountIn recipient =
        Except.ok ⟨v, 0, recipient⟩) ∧
    (tokenIn ≠ m.token0 → tokenIn ≠ m.token1 →
      sellTokens m tokenIn amountIn recipient =
        Except.error EvalError.badTokenInput) := by
  refine ⟨?_, ?_, ?_⟩
  · intro h v hv
    subst h
    unfold sellTokens
    rw [if_pos rfl, hv]
  · intro h0 h1 v hv
    subst h1
    unfold sellTokens
    rw [if_neg h0, if_pos rfl, hv]
  · intro h0 h1
    unfold sellTokens
    rw [if_neg h0, if_neg h1]

/-- Witness for the amended C9 at a concrete input: on a market with
tokens A, B and reserves 1000000/1000000, selling 1000 of A yields the
swap invocation with zero in the A slot and the quote 996 in the
B slot. -/
theorem c9_sellTokens_slots_witness :
    sellTokens
        (setReservesViaOrderedBalances
          (mkUniswappyV2EthPair "P" "A" "B") (1000000, 1000000))
        "A" 1000 "R" =
      Except.ok ⟨0, 996, "R"⟩ :=
  (c9_sellTokens_slots
    (setReservesViaOrderedBalances
      (mkUniswappyV2EthPair "P" "A" "B") (1000000, 1000000))
    "A" 1000 "R").1 rfl 996 rfl

/-- Lookup in a two-entry balance list, fully case-analysed. -/
lemma lookup_pair (t t0 t1 : String) (c0 c1 : BigNumber) :
    List.lookup t [(t0, c0), (t1, c1)] =
      if t = t0 then some c0 else if t = t1 then some c1 else none := by
  by_cases h0 : t = t0
  · subst h0
    simp [List.lookup]
  · have hb0 : (t == t0) = false := beq_eq_false_iff_ne.mpr h0
    by_cases h1 : t = t1
    · subst h1
      simp [List.lookup, hb0, h0]
    · have hb1 : (t == t1) = false := beq_eq_false_iff_ne.mpr h1
      simp [List.lookup, hb0, hb1, h0, h1]

/-- Shape invariant: any foldl of setReservesViaOrderedBalances over a
market whose balance list is keyed by its own token pair keeps the
address, the token pair, and that key shape. -/
lemma foldl_setReserves_shape (addr t0 t1 : String) :
    ∀ (updates : List (BigNumber × BigNumber)) (b0 b1 : BigNumber),
      ∃ c0 c1,
        updates.foldl setReservesViaOrderedBalances
            ⟨addr, t0, t1, [(t0, b0), (t1, b1)]⟩ =
          ⟨addr, t0, t1, [(t0, c0), (t1, c1)]⟩ := by
  intro updates
  induction updates with
  | nil => intro b0 b1; exact ⟨b0, b1, rfl⟩
  | cons u us ih =>
    intro b0 b1
    rw [List.foldl_cons]
    have hstep :
        setReservesViaOrderedBalances
            ⟨addr, t0, t1, [(t0, b0), (t1, b1)]⟩ u =
          ⟨addr, t0, t1, [(t0, u.1), (t1, u.2)]⟩ := by
      simp only [setReservesViaOrderedBalances,
        setReservesViaMatchingArray]
      split_ifs with hc
      · rw [hc]
      · rfl
    rw [hstep]
    exact ih u.1 u.2

/-- Divisions inside getAmountIn can only raise the division-by-zero
fault, never the missing-key fault. -/
lemma getAmountIn_ne_badToken (x y z : BigNumber) :
    getAmountIn x y z ≠ Except.error EvalError.badToken := by
  simp only [getAmountIn, bnDiv]
  split_ifs <;> simp

/-- Divisions inside getAmountOut can only raise the division-by-zero
fault, never the missing-key fault. -/
lemma getAmountOut_ne_badToken (x y z : BigNumber) :
    getAmountOut x y z ≠ Except.error EvalError.badToken := by
  simp only [getAmountOut, bnDiv]
  split_ifs <;> simp

/-- C10: for a market constructed from two distinct token addresses,
after construction and any sequence of setReservesViaOrderedBalances
calls, the key list of the balance mapping is exactly the ordered token
pair; getBalance succeeds on every constituent, getTokensIn and
getTokensOut on constituents never fail with the missing-key error
(their only possible failure is the quote arithmetic itself), and
receiveDirectly holds exactly for the two constituents. -/
theorem c10_balance_key_invariant (addr t0 t1 : String) (h : t0 ≠ t1)
    (updates : List (BigNumber × BigNumber)) (m : UniswappyV2EthPair)
    (hm : m = updates.foldl setReservesViaOrderedBalances
      (mkUniswappyV2EthPair addr t0 t1)) :
    m.tokenBalances.map Prod.fst = [t0, t1] ∧
    (∀ t, receiveDirectly m t = true ↔ (t = t0 ∨ t = t1)) ∧
    (∀ t, (t = t0 ∨ t = t1) → ∃ b, getBalance m t = Except.ok b) ∧
    (∀ tIn tOut a, (tIn = t0 ∨ tIn = t1) → (tOut = t0 ∨ tOut = t1) →
      getTokensIn m tIn tOut a ≠ Except.error EvalError.badToken ∧
      getTokensOut m tIn tOut a ≠ Except.error EvalError.badToken) := by
  obtain ⟨c0, c1, hshape⟩ := foldl_setReserves_shape addr t0 t1 updates 0 0
  have hm2 : m = ⟨addr, t0, t1, [(t0, c0), (t1, c1)]⟩ := by
    rw [hm]
    exact hshape
  subst hm2
  have hlook : ∀ t, (t = t0 ∨ t = t1) →
      List.lookup t [(t0, c0), (t1, c1)] =
        some (if t = t0 then c0 else c1) := by
    intro t ht
    rw [lookup_pair]
    rcases ht with rfl | rfl
    · simp
    · simp [Ne.symm h]
  refine ⟨rfl, ?_, ?_, ?_⟩
  · intro t
    unfold receiveDirectly
    rw [lookup_pair]
    by_cases h0 : t = t0
    · rw [if_pos h0]
      simp [h0]
    · by_cases h1 : t = t1
      · rw [if_neg h0, if_pos h1]
        simp [h1]
      · rw [if_neg h0, if_neg h1]
        simp [h0, h1]
  · intro t ht
    refine ⟨if t = t0 then c0 else c1, ?_⟩
    unfold getBalance
    rw [hlook t ht]
  · intro tIn tOut a hIn hOut
    unfold getTokensIn getTokensOut
    rw [hlook tIn hIn, hlook tOut hOut]
    exact ⟨getAmountIn_ne_badToken _ _ _, getAmountOut_ne_badToken _ _ _⟩

/-- Witness for C10 at a concrete input: tokens A and B with one
reserve update; the key list is exactly A, B and receiveDirectly
holds for A. -/
theorem c10_balance_key_invariant_witness :
    (List.foldl setReservesViaOrderedBalances
        (mkUniswappyV2EthPair "P" "A" "B")
        [(5, 6)]).tokenBalances.map Prod.fst = ["A", "B"] ∧
    receiveDirectly
      (List.foldl setReservesViaOrderedBalances
        (mkUniswappyV2EthPair "P" "A" "B") [(5, 6)]) "A" = true := by
  have h := c10_balance_key_invariant "P" "A" "B" (by decide) [(5, 6)]
    (List.foldl setReservesViaOrderedBalances
      (mkUniswappyV2EthPair "P" "A" "B") [(5, 6)]) rfl
  exact ⟨h.1, (h.2.1 "A").mpr (Or.inl rfl)⟩

end SimpleArb
